import Mathlib

/-!
Verification of the Oracle dynamic-credential backend (`builtin/logical/oracle`).

The Go source is shallowly embedded: pure string manipulation becomes Lean
functions on `String`/`List Char`; the database is a list of committed
statement effects plus an optional open-transaction buffer; fallible calls
(storage reads, UUID generation, SQL prepare/exec) are parameters of type
`Except`/`Bool` so that every control path of the Go functions is represented.

The repository contains several revisions of `secret_creds.go`; each revision
is embedded under its own name:
  * `secretCredsRevokeTxn` / `secretCredsRenewAlter` — `builtin/logical/oracle/secret_creds.go`
  * `secretCredsRevokeSessions` — the revision in `unnamed/part_000`
  * `secretCredsRevokeFallback` / `secretCredsRenewPure` — the revision in `unnamed/part_001`
-/

/-! ## String helpers (strings.TrimSpace, strutil.ParseArbitraryStringSlice, Query) -/

/-- ASCII whitespace recognised by `strings.TrimSpace` on the SQL templates in use. -/
def isSpaceChar (c : Char) : Bool :=
  c = ' ' || c = '\t' || c = '\n' || c = '\r'

/-- Drop whitespace from both ends, as `strings.TrimSpace` does. -/
def trimChars (cs : List Char) : List Char :=
  ((cs.dropWhile isSpaceChar).reverse.dropWhile isSpaceChar).reverse

/-- `strings.TrimSpace` on a `String`. -/
def trimStr (s : String) : String :=
  String.mk (trimChars s.data)

/-- Split a character list at every occurrence of the delimiter character. -/
def splitCharsAux (delim : Char) : List Char → List Char → List (List Char)
  | [], acc => [acc.reverse]
  | c :: rest, acc =>
    if c = delim then acc.reverse :: splitCharsAux delim rest []
    else splitCharsAux delim rest (c :: acc)

/-- Modelled from the spec: `strutil.ParseArbitraryStringSlice` (helper package not
under `src/`) splits the `creationSQL`/`revocationSQL` string on the `";"`
delimiter passed at every call site; the spec describes the statements as
"semicolon-delimited" and leaves trimming and empty-fragment skipping to the
caller, which the Go call sites perform themselves afterwards. -/
def parseArbitraryStringSlice (s : String) : List String :=
  (splitCharsAux ';' s.data []).map String.mk

/-- Replace every occurrence of `pat` in the character list by `rep`,
left to right, as `strings.Replace(s, pat, rep, -1)` does. The fuel
argument (instantiated with the length of the list) bounds the recursion;
each step consumes at least one character of a non-empty input. -/
def replaceAllAux (pat rep : List Char) : Nat → List Char → List Char
  | 0, cs => cs
  | _ + 1, [] => []
  | fuel + 1, c :: rest =>
    if pat.isPrefixOf (c :: rest) then
      rep ++ replaceAllAux pat rep fuel ((c :: rest).drop pat.length)
    else
      c :: replaceAllAux pat rep fuel rest

/-- `strings.Replace(s, pat, rep, -1)` for a non-empty pattern. -/
def replaceAll (pat rep s : String) : String :=
  if pat.data.isEmpty then s
  else String.mk (replaceAllAux pat.data rep.data s.data.length s.data)

/-- Modelled from the spec: the `Query` template-substitution helper (defined in a
file of this repository not under `src/`) literally replaces each `\x7b\x7bkey\x7d\x7d`
token by its value, as the spec's "Template substitution" glossary entry and
§4.4 step 5 describe; the call sites pass the `name`/`password` map. -/
def Query (tpl : String) (vars : List (String × String)) : String :=
  vars.foldl (fun s kv => replaceAll ("\x7b\x7b" ++ kv.1 ++ "\x7d\x7d") kv.2 s) tpl

/-! ## Identifier generation (`path_role_create.go`) -/

def oracleUsernameLength : Nat := 30

def oraclePasswordLength : Nat := 30

def displayNameLimit : Nat := 10

/-- `strings.Replace(userUUID, "-", "_", -1)`: a single-character pattern with
unlimited count is exactly a character-wise map. -/
def replaceDashes (s : String) : String :=
  String.mk (s.data.map (fun c => if c = '-' then '_' else c))

/-- Go slicing `s[:n]` on the ASCII strings in play: take the first `n` characters. -/
def takeStr (s : String) (n : Nat) : String :=
  String.mk (s.data.take n)

/-- The username built by `pathRoleCreateRead` from the request's display name and
the generated UUID: truncate the display name to `displayNameLimit`, join with
`"_"` to the UUID with its hyphens replaced by underscores, truncate the result
to `oracleUsernameLength`. -/
def generatedUsername (displayName uuid : String) : String :=
  let dn := if displayName.length > displayNameLimit then takeStr displayName displayNameLimit else displayName
  let u := dn ++ "_" ++ replaceDashes uuid
  if u.length > oracleUsernameLength then takeStr u oracleUsernameLength else u

/-- Alphabet for the first password character (26 possibilities). -/
def firstLetterBytes : List Char := "abcdefghijklmnopqrstuvwxyz".data

def firstLetterIdxBits : Nat := 5

def firstLetterIdxMask : Nat := 1 <<< firstLetterIdxBits - 1

/-- Alphabet for the remaining password characters (37 possibilities). -/
def letterBytes : List Char := "abcdefghijklmnopqrstuvwxyz_1234567890".data

def letterIdxBits : Nat := 6

def letterIdxMask : Nat := 1 <<< letterIdxBits - 1

/-- One iteration of the draw loops of `oraclePasswordRandomString`: read bytes
from the stream until `byte & mask` falls inside the alphabet, then return that
character and the unread remainder; `none` models an error from the random
source (the stream is exhausted). -/
def pickChar (alphabet : List Char) (mask : Nat) : List Nat → Option (Char × List Nat)
  | [] => none
  | b :: rest =>
    let idx := b &&& mask
    if h : idx < alphabet.length then some (alphabet.get ⟨idx, h⟩, rest)
    else pickChar alphabet mask rest

/-- The second loop of `oraclePasswordRandomString`: draw `n` further characters. -/
def fillChars (alphabet : List Char) (mask : Nat) : Nat → List Nat → List Char → Option (List Char)
  | 0, _, acc => some acc
  | n + 1, bs, acc =>
    match pickChar alphabet mask bs with
    | none => none
    | some (c, rest) => fillChars alphabet mask n rest (acc ++ [c])

/-- `oraclePasswordRandomString`: the first character is drawn from
`firstLetterBytes` under `firstLetterIdxMask`, the remaining
`oraclePasswordLength - 1` characters from `letterBytes` under `letterIdxMask`;
out-of-range draws are skipped and redrawn. The byte stream stands for
`bufio.NewReader(rand.Reader)`. -/
def oraclePasswordRandomString (bs : List Nat) : Option String :=
  match pickChar firstLetterBytes firstLetterIdxMask bs with
  | none => none
  | some (c, rest) =>
    match fillChars letterBytes letterIdxMask (oraclePasswordLength - 1) rest [c] with
    | none => none
    | some cs => some (String.mk cs)

/-! ## Data model -/

/-- The fields of `roleEntry` referenced by the embedded functions
(`role.SQL`, `role.RevocationSQL`). -/
structure roleEntry where
  sql : String
  revocationSQL : String
deriving DecidableEq

/-- The fields of `configLease` referenced by the embedded functions
(`lease.Lease`, `lease.LeaseMax`), durations in seconds. -/
structure configLease where
  lease : Nat
  leaseMax : Nat
deriving DecidableEq

/-- The fields of `connectionConfig` referenced by `DB`
(`ConnectionURL`, `ConnectionString`, `MaxOpenConnections`, `MaxIdleConnections`). -/
structure connectionConfig where
  connectionURL : String
  connectionString : String
  maxOpenConnections : Int
  maxIdleConnections : Int
deriving DecidableEq

/-- A value stored in `req.Secret.InternalData` (a `map[string]interface\x7b\x7d`):
either a string or some non-string value. -/
inductive FieldVal where
  | str (s : String)
  | num (n : Int)
deriving DecidableEq

/-- A Go two-value type assertion `v.(string)` with the `ok` flag ignored:
a string yields itself, any other value yields the zero value `""`. -/
def typeAssertString : FieldVal → String
  | .str s => s
  | _ => ""

/-- Outcome of a handler: a successful `*logical.Response`, an
`logical.ErrorResponse` returned with a nil error, or a non-nil Go error. -/
inductive OpResult (α : Type) where
  | ok (val : α)
  | errResp (msg : String)
  | fail (err : String)
deriving DecidableEq

/-- Outcomes of SQL calls made through the shared handle: `beginOk` for
`db.Begin()`, `prepareOk`/`execOk` for `Prepare`/`Exec` of a given statement
text, `commitOk` for `tx.Commit()`. -/
structure ExecEnv where
  beginOk : Bool
  prepareOk : String → Bool
  execOk : String → Bool
  commitOk : Bool

/-- Database state: the list of committed statement effects, plus the buffer of
an open transaction when one exists. -/
structure DbState where
  committed : List String
  tx : Option (List String)
deriving DecidableEq

/-- `db.Begin()`: open a transaction with an empty buffer. -/
def beginTx (st : DbState) : DbState :=
  { st with tx := some [] }

/-- `stmt.Exec()` of statement `q`: inside an open transaction the effect goes
to the buffer; outside it is committed immediately. -/
def txExec (st : DbState) (q : String) : DbState :=
  match st.tx with
  | some buf => { st with tx := some (buf ++ [q]) }
  | none => { st with committed := st.committed ++ [q] }

/-- `tx.Commit()`: append the buffered effects to the committed state. -/
def commitTx (st : DbState) : DbState :=
  match st.tx with
  | some buf => { committed := st.committed ++ buf, tx := none }
  | none => st

/-- `tx.Rollback()`: discard the open transaction's buffer; a no-op when the
transaction is already done (`ErrTxDone` is ignored by the deferred call). -/
def rollbackTx (st : DbState) : DbState :=
  { st with tx := none }

/-! ## Credential issuance (`pathRoleCreateRead`, `path_role_create.go`) -/

/-- The split-trim-skip-substitute pipeline applied to `role.SQL` by the
issuance loop: split on `";"`, trim whitespace, skip empty fragments,
substitute `\x7b\x7bname\x7d\x7d` and `\x7b\x7bpassword\x7d\x7d`. -/
def creationStatements (sql username password : String) : List String :=
  (((parseArbitraryStringSlice sql).map trimStr).filter
    (fun q => q.length ≠ 0)).map
      (fun q => Query q [("name", username), ("password", password)])

/-- The issuance/revocation statement loop run inside an open transaction:
prepare then execute each statement, returning the first underlying error. -/
def runTxStatements (env : ExecEnv) (st : DbState) : List String → Except String Unit × DbState
  | [] => (.ok (), st)
  | q :: rest =>
    if env.prepareOk q then
      if env.execOk q then runTxStatements env (txExec st q) rest
      else (.error ("exec failed: " ++ q), st)
    else (.error ("prepare failed: " ++ q), st)

/-- Inputs of one `pathRoleCreateRead` call: the requested role name and the
request's display name, the outcomes of the two storage lookups (`b.Role`,
`b.Lease`), of `uuid.GenerateUUID`, the random bytes consumed by
`oraclePasswordRandomString`, the outcome of `b.DB`, and the SQL outcomes. -/
structure IssueInput where
  name : String
  displayName : String
  roleLookup : Except String (Option roleEntry)
  leaseLookup : Except String (Option configLease)
  uuidResult : Except String String
  passwordBytes : List Nat
  dbAcquire : Except String Unit
  env : ExecEnv

/-- The response built on success: `resp.Data`, `resp.Secret.InternalData`,
and the TTL set from `lease.Lease`. -/
structure SecretResponse where
  data : List (String × String)
  internalData : List (String × String)
  ttl : Nat
deriving DecidableEq

/-- `pathRoleCreateRead`: look up the role (unknown role is an error response),
look up the lease (absent means zero defaults), build the username from the
display name and UUID, generate the password, acquire the handle, run every
creation statement inside one transaction and commit; the deferred rollback
discards the buffer on any early return.  Returns the handler outcome and the
committed database state. -/
def pathRoleCreateRead (inp : IssueInput) (db : List String) :
    OpResult SecretResponse × List String :=
  match inp.roleLookup with
  | .error e => (.fail e, db)
  | .ok none => (.errResp ("unknown role: " ++ inp.name), db)
  | .ok (some role) =>
    match inp.leaseLookup with
    | .error e => (.fail e, db)
    | .ok leaseOpt =>
      let lease := leaseOpt.getD ⟨0, 0⟩
      match inp.uuidResult with
      | .error e => (.fail e, db)
      | .ok uuid =>
        let username := generatedUsername inp.displayName uuid
        match oraclePasswordRandomString inp.passwordBytes with
        | none => (.fail "random source error", db)
        | some password =>
          match inp.dbAcquire with
          | .error e => (.fail e, db)
          | .ok _ =>
            if inp.env.beginOk then
              match runTxStatements inp.env (beginTx ⟨db, none⟩)
                  (creationStatements role.sql username password) with
              | (.error e, st) => (.fail e, (rollbackTx st).committed)
              | (.ok _, st) =>
                if inp.env.commitOk then
                  (.ok ⟨[("username", username), ("password", password)],
                        [("username", username), ("role", inp.name)],
                        lease.lease⟩,
                   (rollbackTx (commitTx st)).committed)
                else
                  (.fail "commit failed", (rollbackTx st).committed)
            else (.fail "begin failed", db)

/-! ## Lease renewal (`secretCredsRenew`) -/

/-- Error case of lease extension. -/
inductive RenewError where
  | leaseNotRenewable
deriving DecidableEq

/-- Outcome of a renew handler call. -/
inductive RenewResult where
  | ok (ttl : Nat)
  | notRenewable
  | fail (e : String)
deriving DecidableEq

/-- Modelled from the spec: `framework.LeaseExtend(lease.Lease, lease.LeaseMax,
b.System())` is framework code of this repository not under `src/`.  Per §4.5 it
"extends the lease's expiry but never beyond `LeasePolicy.leaseMax` from the
original issue time" and "fails with `LeaseNotRenewable` if the lease has
already exceeded its maximum"; per §4.4/§3 an absent or zero policy value falls
back to engine-defined (system) defaults.  Times are seconds since epoch. -/
def leaseExtend (leaseDefault leaseMax sysMax issueTime now requested : Nat) :
    Except RenewError Nat :=
  let maxTTL := if leaseMax = 0 then sysMax else leaseMax
  if issueTime + maxTTL ≤ now then .error .leaseNotRenewable
  else
    let increment := if requested = 0 then leaseDefault else requested
    .ok (min (now + increment) (issueTime + maxTTL) - now)

/-- `secretCredsRenew` as in `unnamed/part_000` and `unnamed/part_001`: read the
lease policy (absent means zero defaults) and delegate to `leaseExtend`;
nothing else happens. -/
def secretCredsRenewPure (leaseLookup : Except String (Option configLease))
    (sysMax issueTime now requested : Nat) : RenewResult :=
  match leaseLookup with
  | .error e => .fail e
  | .ok leaseOpt =>
    let lease := leaseOpt.getD ⟨0, 0⟩
    match leaseExtend lease.lease lease.leaseMax sysMax issueTime now requested with
    | .error .leaseNotRenewable => .notRenewable
    | .ok ttl => .ok ttl

/-! ## Internal-data extraction (`req.Secret.InternalData["username"]`) -/

/-- The username-extraction step shared by the renew and revoke handlers: a
missing key is an error; a present value goes through the two-value type
assertion whose failure is ignored. -/
def extractUsername (internal : List (String × FieldVal)) : Except String String :=
  match internal.lookup "username" with
  | none => .error "secret is missing username internal data"
  | some v => .ok (typeAssertString v)

/-! ## Database interaction traces -/

/-- One observable database interaction of a handler. -/
inductive DbAct where
  | acquireDB
  | sessionQueryPrepare (q : String)
  | sessionRowsQuery
  | killExec (q : String)
  | prepareStmt (q : String)
  | execStmt (q : String)
deriving DecidableEq

/-- Acts belonging to the session-termination phase. -/
def isSessionAct : DbAct → Bool
  | .sessionQueryPrepare _ => true
  | .sessionRowsQuery => true
  | .killExec _ => true
  | _ => false

/-- Acts belonging to the revocation-statement phase. -/
def isRevStmtAct : DbAct → Bool
  | .prepareStmt _ => true
  | .execStmt _ => true
  | _ => false

/-- Holds when no session-phase act occurs after a revocation-statement act. -/
def noSessionAfterRevStmt : List DbAct → Bool
  | [] => true
  | a :: rest =>
    (if isRevStmtAct a then rest.all (fun b => !isSessionAct b) else true) &&
      noSessionAfterRevStmt rest

/-! ## Revocation (`secretCredsRevoke`, three revisions) -/

/-- The split-trim-skip-substitute pipeline applied to the revocation SQL
(`\x7b\x7bname\x7d\x7d` only). -/
def revocationStatements (sql username : String) : List String :=
  (((parseArbitraryStringSlice sql).map trimStr).filter
    (fun q => q.length ≠ 0)).map
      (fun q => Query q [("name", username)])

/-- The `defaultRevocationSQL` constant of
`builtin/logical/oracle/secret_creds.go`. -/
def defaultRevocationSQLTxn : String := "\nDROP USER \x7b\x7bname\x7d\x7d\n"

/-- The `defaultRevocationSQL` constant of `unnamed/part_001`. -/
def defaultRevocationSQLFallback : String :=
  "\nREVOKE CONNECT FROM \x7b\x7bname\x7d\x7d;\nREVOKE CREATE SESSION FROM \x7b\x7bname\x7d\x7d;\nDROP USER \x7b\x7bname\x7d\x7d;\n"

/-- The `revocationSQL` constant of `unnamed/part_000`. -/
def revocationSQLSessions : String :=
  "\nREVOKE CONNECT FROM \x7b\x7bname\x7d\x7d;\nREVOKE CREATE SESSION FROM \x7b\x7bname\x7d\x7d;\nDROP USER \x7b\x7bname\x7d\x7d;\n"

/-- The `sessionQuerySQL` constant of `unnamed/part_000`. -/
def sessionQuerySQL : String :=
  "SELECT sid, serial#, username FROM v$session WHERE username = UPPER('\x7b\x7bname\x7d\x7d')"

/-- `fmt.Sprintf(sessionKillSQL, sessionId, serialNumber)` of `unnamed/part_000`. -/
def killStatement (sid serial : Nat) : String :=
  "ALTER SYSTEM KILL SESSION '" ++ toString sid ++ "," ++ toString serial ++ "' IMMEDIATE"

/-- Inputs of a revoke call for the revisions that read the role from storage:
the secret's internal data, the outcome of `b.Role` per role name, the outcome
of `b.DB`, and the SQL outcomes. -/
structure RevokeInput where
  internalData : List (String × FieldVal)
  roleLookup : String → Except String (Option roleEntry)
  dbAcquire : Except String Unit
  env : ExecEnv

/-- `secretCredsRevoke` of `builtin/logical/oracle/secret_creds.go`: extract the
username; when a `role` key is present look the role up, and on a missing role
attach the warning (the local `revocationSQL` is left empty — the file's
`defaultRevocationSQL` is never assigned to it); acquire the handle and run the
statements of the resolved SQL inside one transaction.  Returns the warnings,
and the committed database state. -/
def secretCredsRevokeTxn (inp : RevokeInput) (db : List String) :
    OpResult (List String) × List String :=
  match extractUsername inp.internalData with
  | .error e => (.fail e, db)
  | .ok username =>
    let roleStep : Except String (String × List String) :=
      match inp.internalData.lookup "role" with
      | none => .ok ("", [])
      | some roleVal =>
        match inp.roleLookup (typeAssertString roleVal) with
        | .error e => .error e
        | .ok none =>
          .ok ("", ["Role \"" ++ typeAssertString roleVal ++
            "\" cannot be found. Using default revocation SQL."])
        | .ok (some role) => .ok (role.revocationSQL, [])
    match roleStep with
    | .error e => (.fail e, db)
    | .ok (revocationSQL, warnings) =>
      match inp.dbAcquire with
      | .error e => (.fail e, db)
      | .ok _ =>
        if inp.env.beginOk then
          match runTxStatements inp.env (beginTx ⟨db, none⟩)
              (revocationStatements revocationSQL username) with
          | (.error e, st) => (.fail e, (rollbackTx st).committed)
          | (.ok _, st) =>
            if inp.env.commitOk then
              (.ok warnings, (rollbackTx (commitTx st)).committed)
            else
              (.fail "commit failed", (rollbackTx st).committed)
        else (.fail "begin failed", db)

/-- The statement loop of the non-transactional revocation revisions:
`db.Prepare` then `stmt.Exec` for each statement, the effect of a successful
execution being committed immediately (no transaction). -/
def runDirectStatements (env : ExecEnv) :
    List String → List String → List DbAct → Except String Unit × List String × List DbAct
  | [], db, tr => (.ok (), db, tr)
  | q :: rest, db, tr =>
    if env.prepareOk q then
      if env.execOk q then
        runDirectStatements env rest (db ++ [q]) (tr ++ [.prepareStmt q, .execStmt q])
      else (.error ("exec failed: " ++ q), db, tr ++ [.prepareStmt q, .execStmt q])
    else (.error ("prepare failed: " ++ q), db, tr ++ [.prepareStmt q])

/-- `secretCredsRevoke` of `unnamed/part_001`: extract the username; read the
role name (unchecked assertion); when it is non-empty look the role up; use the
role's revocation SQL when the role exists and its SQL is non-empty, otherwise
fall back to `defaultRevocationSQLFallback` and attach the warning; acquire the
handle and execute the statements outside any transaction (DDL auto-commits).
Returns the warnings, the committed database state and the interaction trace. -/
def secretCredsRevokeFallback (inp : RevokeInput) (db : List String) :
    OpResult (List String) × List String × List DbAct :=
  match extractUsername inp.internalData with
  | .error e => (.fail e, db, [])
  | .ok username =>
    let roleName :=
      match inp.internalData.lookup "role" with
      | none => ""
      | some v => typeAssertString v
    let roleResult : Except String (Option roleEntry) :=
      if roleName ≠ "" then inp.roleLookup roleName else .ok none
    match roleResult with
    | .error e => (.fail e, db, [])
    | .ok role =>
      let useRoleSQL :=
        match role with
        | some r => r.revocationSQL != ""
        | none => false
      let revocationSQL :=
        match role with
        | some r => if r.revocationSQL ≠ "" then r.revocationSQL else defaultRevocationSQLFallback
        | none => defaultRevocationSQLFallback
      let warnings :=
        if useRoleSQL then []
        else ["Role \"" ++ roleName ++ "\" cannot be found. Using default SQL for revoking user."]
      match inp.dbAcquire with
      | .error e => (.fail e, db, [.acquireDB])
      | .ok _ =>
        match runDirectStatements inp.env
            (revocationStatements revocationSQL username) db [.acquireDB] with
        | (.error e, db1, tr) => (.fail e, db1, tr)
        | (.ok _, db1, tr) => (.ok warnings, db1, tr)

/-- Inputs of a revoke call for the `unnamed/part_000` revision, which performs
session termination and reads no role: the rows returned by the `v$session`
query and the outcomes of the surrounding calls. -/
structure RevokeSessionsInput where
  internalData : List (String × FieldVal)
  dbAcquire : Except String Unit
  queryOk : Bool
  sessions : List (Nat × Nat)
  rowsErr : Bool
  env : ExecEnv

/-- The row loop of `unnamed/part_000`: `db.Exec` one kill statement per
returned session row. -/
def killLoop (env : ExecEnv) : List (Nat × Nat) → List DbAct → Except String Unit × List DbAct
  | [], tr => (.ok (), tr)
  | (sid, ser) :: rest, tr =>
    let q := killStatement sid ser
    if env.execOk q then killLoop env rest (tr ++ [.killExec q])
    else (.error ("exec failed: " ++ q), tr ++ [.killExec q])

/-- `secretCredsRevoke` of `unnamed/part_000`: extract the username; acquire the
handle; prepare and run the `v$session` query; kill every returned session;
check the row error; then execute the statements of the fixed `revocationSQL`
outside any transaction (DDL auto-commits).  The row `Scan` cannot fail on the
view's integer columns and is not modelled.  Returns the outcome, the committed
database state and the interaction trace. -/
def secretCredsRevokeSessions (inp : RevokeSessionsInput) (db : List String) :
    OpResult Unit × List String × List DbAct :=
  match extractUsername inp.internalData with
  | .error e => (.fail e, db, [])
  | .ok username =>
    match inp.dbAcquire with
    | .error e => (.fail e, db, [.acquireDB])
    | .ok _ =>
      let subQ := Query sessionQuerySQL [("name", username)]
      if inp.env.prepareOk subQ then
        if inp.queryOk then
          match killLoop inp.env inp.sessions
              [.acquireDB, .sessionQueryPrepare subQ, .sessionRowsQuery] with
          | (.error e, tr) => (.fail e, db, tr)
          | (.ok _, tr) =>
            if inp.rowsErr then (.fail "rows error", db, tr)
            else
              match runDirectStatements inp.env
                  (revocationStatements revocationSQLSessions username) db tr with
              | (.error e, db1, tr1) => (.fail e, db1, tr1)
              | (.ok _, db1, tr1) => (.ok (), db1, tr1)
        else (.fail "query failed", db, [.acquireDB, .sessionQueryPrepare subQ, .sessionRowsQuery])
      else (.fail ("prepare failed: " ++ subQ), db, [.acquireDB, .sessionQueryPrepare subQ])

/-- `fmt.Sprintf("ALTER ROLE '%s' VALID UNTIL '%s';", username, expiration)` of
`builtin/logical/oracle/secret_creds.go`. -/
def alterRoleQuery (username expiration : String) : String :=
  "ALTER ROLE '" ++ username ++ "' VALID UNTIL '" ++ expiration ++ "';"

/-- Inputs of a renew call for the `builtin/logical/oracle/secret_creds.go`
revision: the secret's internal data, the outcome of `b.DB`, the lease lookup,
the lease-extension times, the formatted `resp.Secret.ExpirationTime()` (`none`
models the zero time), and the SQL outcomes. -/
structure RenewAlterInput where
  internalData : List (String × FieldVal)
  dbAcquire : Except String Unit
  leaseLookup : Except String (Option configLease)
  sysMax : Nat
  issueTime : Nat
  now : Nat
  requested : Nat
  expirationTime : Option String
  env : ExecEnv

/-- `secretCredsRenew` of `builtin/logical/oracle/secret_creds.go`: extract the
username; acquire the database handle; read the lease policy; extend the lease;
then, when the response's expiration time is non-zero, prepare and execute an
`ALTER ROLE ... VALID UNTIL ...` statement against the database.  Returns the
outcome and the interaction trace. -/
def secretCredsRenewAlter (inp : RenewAlterInput) : RenewResult × List DbAct :=
  match extractUsername inp.internalData with
  | .error e => (.fail e, [])
  | .ok username =>
    match inp.dbAcquire with
    | .error e => (.fail e, [.acquireDB])
    | .ok _ =>
      match inp.leaseLookup with
      | .error e => (.fail e, [.acquireDB])
      | .ok leaseOpt =>
        let lease := leaseOpt.getD ⟨0, 0⟩
        match leaseExtend lease.lease lease.leaseMax inp.sysMax inp.issueTime
            inp.now inp.requested with
        | .error .leaseNotRenewable => (.notRenewable, [.acquireDB])
        | .ok ttl =>
          match inp.expirationTime with
          | none => (.ok ttl, [.acquireDB])
          | some exp =>
            let q := alterRoleQuery username exp
            if inp.env.prepareOk q then
              if inp.env.execOk q then (.ok ttl, [.acquireDB, .prepareStmt q, .execStmt q])
              else (.fail ("exec failed: " ++ q), [.acquireDB, .prepareStmt q, .execStmt q])
            else (.fail ("prepare failed: " ++ q), [.acquireDB, .prepareStmt q])

/-! ## Connection management (`DB`, `unnamed/part_000`) -/

/-- The connection-string selection of `DB`: start from `ConnectionURL` and
fall back to `ConnectionString` only when it is empty. -/
def dbConnString (cfg : connectionConfig) : String :=
  let conn := cfg.connectionURL
  if conn.length = 0 then cfg.connectionString else conn

/-! ## Property vocabulary -/

/-- `c` is in `[a-z]`. -/
def isLowerAlpha (c : Char) : Bool := 'a' ≤ c && c ≤ 'z'

/-- `c` is in `[0-9]`. -/
def isDigitChar (c : Char) : Bool := '0' ≤ c && c ≤ '9'

/-- `c` is in `[a-z0-9_]`. -/
def isWordChar (c : Char) : Bool := isLowerAlpha c || isDigitChar c || c = '_'

/-- `c` is a lower-case hexadecimal digit. -/
def isLowerHex (c : Char) : Bool := isDigitChar c || ('a' ≤ c && c ≤ 'f')

/-- The string matches `^[a-z][a-z0-9_]*$`. -/
def matchesUsernameRegex (s : String) : Bool :=
  match s.data with
  | [] => false
  | c :: rest => isLowerAlpha c && rest.all isWordChar

/-- The password shape of the spec: non-empty, first character in `[a-z]`,
remaining characters in `[a-z0-9_]`. -/
def passwordCharsOk (s : String) : Bool :=
  match s.data with
  | [] => false
  | c :: rest => isLowerAlpha c && rest.all isWordChar

/-! ## Sample inputs used by concrete instantiations -/

/-- An environment in which every SQL call succeeds. -/
def envAllOk : ExecEnv := ⟨true, fun _ => true, fun _ => true, true⟩

/-- A two-statement creation template, as in the spec's end-to-end scenario. -/
def issueRoleSQL : String :=
  "CREATE USER \x7b\x7bname\x7d\x7d IDENTIFIED BY \x7b\x7bpassword\x7d\x7d; GRANT CONNECT TO \x7b\x7bname\x7d\x7d"

/-- An issuance request on which every step succeeds. -/
def issueSampleOk : IssueInput :=
  ⟨"web", "tok", .ok (some ⟨issueRoleSQL, ""⟩), .ok none, .ok "u1",
   List.replicate 30 0, .ok (), envAllOk⟩

/-- The same issuance request, but executing the second creation statement fails. -/
def issueSampleFail : IssueInput :=
  ⟨"web", "tok", .ok (some ⟨issueRoleSQL, ""⟩), .ok none, .ok "u1",
   List.replicate 30 0, .ok (),
   ⟨true, fun _ => true, fun q => !(q == "GRANT CONNECT TO tok_u1"), true⟩⟩

/-- An issuance request whose caller-supplied display name starts with an
upper-case letter. -/
def issueSampleUpper : IssueInput :=
  ⟨"web", "A", .ok (some ⟨issueRoleSQL, ""⟩), .ok none,
   .ok "00000000-0000-0000-0000-000000000000",
   List.replicate 30 0, .ok (), envAllOk⟩

/-- A revoke request whose lease metadata names role `web`, with a store in
which no role exists. -/
def revokeSampleMissingRole : RevokeInput :=
  ⟨[("username", .str "u1"), ("role", .str "web")], fun _ => .ok none, .ok (), envAllOk⟩

/-- A revoke request without a `role` key, against a store with no roles. -/
def revokeSampleNoRole : RevokeInput :=
  ⟨[("username", .str "u1")], fun _ => .ok none, .ok (), envAllOk⟩

/-- A revoke request for the session-terminating revision, with one active
session. -/
def revokeSampleSessions : RevokeSessionsInput :=
  ⟨[("username", .str "u1")], .ok (), true, [(1, 2)], false, envAllOk⟩

/-- A renew request for the `builtin/logical/oracle/secret_creds.go` revision
with a non-zero expiration time. -/
def renewSampleAlter : RenewAlterInput :=
  ⟨[("username", .str "u1")], .ok (), .ok (some ⟨3600, 86400⟩),
   0, 0, 0, 0, some "2018-01-01 00:00:00+0000", envAllOk⟩

/-! # Theorems -/

/-! ## C9: connection_url takes precedence over connection_string -/

theorem string_eq_empty_of_length_zero {s : String} (h : s.length = 0) : s = "" := by
  cases s with
  | mk l =>
    cases l with
    | nil => rfl
    | cons c cs => simp [String.length] at h

/-- C9: when the stored connection configuration has a non-empty
`connection_url`, `DB` opens the connection with `connection_url`;
`connection_string` is used only when `connection_url` is the empty string. -/
theorem dbConnString_prefers_url (cfg : connectionConfig) :
    (cfg.connectionURL ≠ "" → dbConnString cfg = cfg.connectionURL) ∧
    (cfg.connectionURL = "" → dbConnString cfg = cfg.connectionString) := by
  constructor
  · intro h
    unfold dbConnString
    rw [if_neg]
    intro hlen
    exact h (string_eq_empty_of_length_zero hlen)
  · intro h
    unfold dbConnString
    rw [if_pos]
    rw [h]
    rfl

/-- C9 witness: evaluated on a configuration with both fields set and one with
an empty URL. -/
theorem dbConnString_prefers_url_witness :
    dbConnString ⟨"oracle://u:p@db1", "legacy1", 4, 2⟩ = "oracle://u:p@db1" ∧
    dbConnString ⟨"", "legacy2", 4, 2⟩ = "legacy2" :=
  ⟨(dbConnString_prefers_url ⟨"oracle://u:p@db1", "legacy1", 4, 2⟩).1 (by decide),
   (dbConnString_prefers_url ⟨"", "legacy2", 4, 2⟩).2 rfl⟩

/-! ## C10: non-string username values degrade to the empty string -/

/-- C10: when the secret's internal data holds a `username` key whose value is
present but not a string, the extraction step of the revoke and renew handlers
does not fail: the failed type assertion is ignored and the handler proceeds
with the empty string. -/
theorem extractUsername_non_string (internal : List (String × FieldVal)) (v : FieldVal)
    (hv : internal.lookup "username" = some v) (hns : ∀ s, v ≠ .str s) :
    extractUsername internal = .ok "" := by
  unfold extractUsername
  rw [hv]
  cases v with
  | str s => exact absurd rfl (hns s)
  | num n => rfl

/-- C10 witness: a `username` key holding the integer 5. -/
theorem extractUsername_non_string_witness :
    extractUsername [("username", .num 5)] = .ok "" :=
  extractUsername_non_string [("username", .num 5)] (.num 5) rfl
    (fun s h => FieldVal.noConfusion h)

/-! ## C6: renewal is bounded by leaseMax from issue time -/

theorem leaseExtend_bound (d m sm i n r : Nat) (hm : m ≠ 0) :
    (∀ ttl, leaseExtend d m sm i n r = .ok ttl → n + ttl ≤ i + m) ∧
    (i + m ≤ n → leaseExtend d m sm i n r = .error .leaseNotRenewable) := by
  unfold leaseExtend
  simp only [if_neg hm]
  constructor
  · intro ttl h
    split at h
    · cases h
    · injection h with h
      omega
  · intro hle
    rw [if_pos hle]

/-- C6: a renew call never returns a TTL whose absolute expiry exceeds
`issueTime + leaseMax` of the configured lease policy, and a renewal requested
once `leaseMax` has elapsed since issue time fails as not renewable. -/
theorem secretCredsRenew_lease_bound
    (lease : configLease) (sysMax issueTime now requested : Nat)
    (hmax : lease.leaseMax ≠ 0) :
    (∀ ttl,
      secretCredsRenewPure (.ok (some lease)) sysMax issueTime now requested = .ok ttl →
      now + ttl ≤ issueTime + lease.leaseMax) ∧
    (issueTime + lease.leaseMax ≤ now →
      secretCredsRenewPure (.ok (some lease)) sysMax issueTime now requested =
        .notRenewable) := by
  have hb := leaseExtend_bound lease.lease lease.leaseMax sysMax issueTime now requested hmax
  constructor
  · intro ttl h
    rcases hle : leaseExtend lease.lease lease.leaseMax sysMax issueTime now requested with e | t
    · cases e
      simp only [secretCredsRenewPure, Option.getD, hle] at h
      cases h
    · simp only [secretCredsRenewPure, Option.getD, hle] at h
      injection h with h
      subst h
      exact hb.1 t hle
  · intro hle
    simp only [secretCredsRenewPure, Option.getD, hb.2 hle]

/-- C6 witness: a policy with lease 3600 and leaseMax 86400, renewed at issue
time and after the maximum has elapsed. -/
theorem secretCredsRenew_lease_bound_witness :
    (0 + 3600 ≤ 0 + 86400) ∧
    secretCredsRenewPure (.ok (some ⟨3600, 86400⟩)) 0 0 100000 0 = .notRenewable :=
  ⟨(secretCredsRenew_lease_bound ⟨3600, 86400⟩ 0 0 0 0 (by decide)).1 3600 (by decide),
   (secretCredsRenew_lease_bound ⟨3600, 86400⟩ 0 0 100000 0 (by decide)).2 (by decide)⟩

/-! ## C3: password length, charset and rejection sampling -/

theorem pickChar_mem {alphabet : List Char} {mask : Nat} :
    ∀ {bs : List Nat} {c : Char} {rest : List Nat},
    pickChar alphabet mask bs = some (c, rest) → c ∈ alphabet := by
  intro bs
  induction bs with
  | nil => intro c rest h; cases h
  | cons b bs ih =>
    intro c rest h
    simp only [pickChar] at h
    split at h
    · simp only [Option.some.injEq, Prod.mk.injEq] at h
      rw [← h.1]
      exact List.get_mem alphabet _ _
    · exact ih h

theorem fillChars_spec {alphabet : List Char} {mask : Nat} :
    ∀ (n : Nat) (bs : List Nat) (acc cs : List Char),
    fillChars alphabet mask n bs acc = some cs →
    ∃ ds, cs = acc ++ ds ∧ ds.length = n ∧ ∀ c ∈ ds, c ∈ alphabet := by
  intro n
  induction n with
  | zero =>
    intro bs acc cs h
    unfold fillChars at h
    injection h with h
    exact ⟨[], by simp [h]⟩
  | succ n ih =>
    intro bs acc cs h
    unfold fillChars at h
    rcases hp : pickChar alphabet mask bs with _ | ⟨c, rest⟩
    · rw [hp] at h; cases h
    · rw [hp] at h
      obtain ⟨ds, hcs, hlen, hmem⟩ := ih rest (acc ++ [c]) cs h
      refine ⟨c :: ds, by simp [hcs], by simp [hlen], ?_⟩
      intro d hd
      rcases List.mem_cons.mp hd with rfl | hd'
      · exact pickChar_mem hp
      · exact hmem d hd'

/-- C3: every successful `oraclePasswordRandomString` result has length 30,
its first character in `[a-z]` and every remaining character in `[a-z0-9_]`;
and a byte whose masked index falls outside the alphabet is rejected and the
next byte is drawn instead (rejection sampling, not modulo reduction). -/
theorem oraclePasswordRandomString_charset :
    (∀ (bs : List Nat) (s : String), oraclePasswordRandomString bs = some s →
      s.length = oraclePasswordLength ∧ passwordCharsOk s = true) ∧
    (∀ (alphabet : List Char) (mask : Nat) (b : Nat) (bs : List Nat),
      alphabet.length ≤ b &&& mask →
      pickChar alphabet mask (b :: bs) = pickChar alphabet mask bs) := by
  constructor
  · intro bs s h
    unfold oraclePasswordRandomString at h
    rcases h1 : pickChar firstLetterBytes firstLetterIdxMask bs with _ | ⟨c, rest⟩
    · rw [h1] at h; cases h
    · rw [h1] at h
      dsimp only at h
      rcases h2 : fillChars letterBytes letterIdxMask (oraclePasswordLength - 1) rest [c]
        with _ | cs
      · rw [h2] at h; cases h
      · rw [h2] at h
        injection h with h
        obtain ⟨ds, hcs, hlen, hmem⟩ := fillChars_spec _ rest [c] cs h2
        have hc : c ∈ firstLetterBytes := pickChar_mem h1
        have hfirst : isLowerAlpha c = true := by
          have hall : ∀ x ∈ firstLetterBytes, isLowerAlpha x = true := by decide
          exact hall c hc
        have hrest : ∀ d ∈ ds, isWordChar d = true := by
          have hall : ∀ x ∈ letterBytes, isWordChar x = true := by decide
          exact fun d hd => hall d (hmem d hd)
        constructor
        · rw [← h]
          simp [String.length, hcs, hlen, oraclePasswordLength]
        · rw [← h]
          simp only [passwordCharsOk, hcs, List.singleton_append, hfirst,
            Bool.true_and, List.all_eq_true]
          intro d hd
          exact hrest d hd
  · intro alphabet mask b bs hge
    simp only [pickChar]
    rw [dif_neg (by omega)]

/-- C3 witness: a stream of thirty zero bytes yields thirty `a`s, and the
out-of-range byte 26 is skipped by the first-character draw. -/
theorem oraclePasswordRandomString_charset_witness :
    (("aaaaaaaaaaaaaaaaaaaaaaaaaaaaaa" : String).length = oraclePasswordLength ∧
      passwordCharsOk "aaaaaaaaaaaaaaaaaaaaaaaaaaaaaa" = true) ∧
    pickChar firstLetterBytes firstLetterIdxMask [26, 0] =
      pickChar firstLetterBytes firstLetterIdxMask [0] :=
  ⟨oraclePasswordRandomString_charset.1 (List.replicate 30 0)
      "aaaaaaaaaaaaaaaaaaaaaaaaaaaaaa" (by decide),
   oraclePasswordRandomString_charset.2 firstLetterBytes firstLetterIdxMask 26 [0]
      (by decide)⟩

/-! ## C1: issuance is atomic -/

theorem runTxStatements_committed (env : ExecEnv) :
    ∀ (stmts : List String) (committed buf : List String),
    ((runTxStatements env ⟨committed, some buf⟩ stmts).2).committed = committed := by
  intro stmts
  induction stmts with
  | nil => intro committed buf; rfl
  | cons q rest ih =>
    intro committed buf
    by_cases hp : env.prepareOk q = true
    · by_cases he : env.execOk q = true
      · simp only [runTxStatements, hp, he, if_true, txExec]
        exact ih committed (buf ++ [q])
      · simp [runTxStatements, hp, he]
    · simp [runTxStatements, hp]

theorem runTxStatements_fails (env : ExecEnv) :
    ∀ (stmts : List String) (st : DbState),
    (∃ q ∈ stmts, env.prepareOk q = false ∨ env.execOk q = false) →
    ∃ e st', runTxStatements env st stmts = (.error e, st') := by
  intro stmts
  induction stmts with
  | nil =>
    intro st h
    rcases h with ⟨q, hq, _⟩
    cases hq
  | cons q rest ih =>
    intro st h
    by_cases hp : env.prepareOk q = true
    · by_cases he : env.execOk q = true
      · have hrest : ∃ r ∈ rest, env.prepareOk r = false ∨ env.execOk r = false := by
          rcases h with ⟨r, hr, hfail⟩
          rcases List.mem_cons.mp hr with rfl | hr'
          · rcases hfail with h1 | h1
            · rw [hp] at h1; cases h1
            · rw [he] at h1; cases h1
          · exact ⟨r, hr', hfail⟩
        obtain ⟨e, st', h'⟩ := ih (txExec st q) hrest
        exact ⟨e, st', by simp [runTxStatements, hp, he, h']⟩
      · exact ⟨"exec failed: " ++ q, st, by simp [runTxStatements, hp, he]⟩
    · exact ⟨"prepare failed: " ++ q, st, by simp [runTxStatements, hp]⟩

/-- C1: if preparing or executing any statement of the split-and-trimmed
creation SQL fails, `pathRoleCreateRead` returns the underlying error, the
transaction is rolled back, and the committed database state is exactly what it
was before the call — no effect of any earlier statement of the issuance
remains observable. -/
theorem pathRoleCreateRead_atomic
    (inp : IssueInput) (db : List String) (role : roleEntry)
    (leaseOpt : Option configLease) (uuid password : String)
    (hrole : inp.roleLookup = .ok (some role))
    (hlease : inp.leaseLookup = .ok leaseOpt)
    (huuid : inp.uuidResult = .ok uuid)
    (hpw : oraclePasswordRandomString inp.passwordBytes = some password)
    (hdb : inp.dbAcquire = .ok ())
    (hbegin : inp.env.beginOk = true)
    (hfail : ∃ q ∈ creationStatements role.sql
        (generatedUsername inp.displayName uuid) password,
      inp.env.prepareOk q = false ∨ inp.env.execOk q = false) :
    (∃ e, (pathRoleCreateRead inp db).1 = .fail e) ∧
    (pathRoleCreateRead inp db).2 = db := by
  obtain ⟨e, st', hrun⟩ := runTxStatements_fails inp.env
    (creationStatements role.sql (generatedUsername inp.displayName uuid) password)
    (beginTx ⟨db, none⟩) hfail
  have hbt : beginTx ⟨db, none⟩ = (⟨db, some []⟩ : DbState) := rfl
  have hcom : st'.committed = db := by
    have hc := runTxStatements_committed inp.env
      (creationStatements role.sql (generatedUsername inp.displayName uuid) password) db []
    rw [← hbt, hrun] at hc
    exact hc
  constructor
  · refine ⟨e, ?_⟩
    simp only [pathRoleCreateRead, hrole, hlease, huuid, hpw, hdb, hbegin, if_true, hrun]
  · simp only [pathRoleCreateRead, hrole, hlease, huuid, hpw, hdb, hbegin, if_true, hrun,
      rollbackTx]
    exact hcom

/-- C1 witness: a two-statement template whose second statement fails to
execute leaves the database exactly as it was. -/
theorem pathRoleCreateRead_atomic_witness :
    (∃ e, (pathRoleCreateRead issueSampleFail ["pre-existing"]).1 = .fail e) ∧
    (pathRoleCreateRead issueSampleFail ["pre-existing"]).2 = ["pre-existing"] :=
  pathRoleCreateRead_atomic issueSampleFail ["pre-existing"]
    ⟨issueRoleSQL, ""⟩ none "u1" "aaaaaaaaaaaaaaaaaaaaaaaaaaaaaa"
    rfl rfl rfl (by decide) rfl rfl (by decide)

/-! ## C8: lease metadata holds exactly username and role, never the password -/

/-- C8: on every successful issuance the secret's internal data is exactly the
`username` and `role` entries, the response data carries the username and the
password, and the password value appears nowhere in the internal data. -/
theorem pathRoleCreateRead_metadata (inp : IssueInput) (db : List String)
    (resp : SecretResponse)
    (h : (pathRoleCreateRead inp db).1 = .ok resp) :
    ∃ u pw, resp.data = [("username", u), ("password", pw)] ∧
      resp.internalData = [("username", u), ("role", inp.name)] ∧
      (pw ≠ u → pw ≠ inp.name → ∀ kv ∈ resp.internalData, kv.2 ≠ pw) := by
  rcases hr : inp.roleLookup with e | ro
  · simp [pathRoleCreateRead, hr] at h
  · rcases ro with _ | role
    · simp [pathRoleCreateRead, hr] at h
    · rcases hl : inp.leaseLookup with e | lo
      · simp [pathRoleCreateRead, hr, hl] at h
      · rcases hu : inp.uuidResult with e | uuid
        · simp [pathRoleCreateRead, hr, hl, hu] at h
        · rcases hp : oraclePasswordRandomString inp.passwordBytes with _ | pw
          · simp [pathRoleCreateRead, hr, hl, hu, hp] at h
          · rcases hd : inp.dbAcquire with e | u
            · simp [pathRoleCreateRead, hr, hl, hu, hp, hd] at h
            · cases u
              by_cases hb : inp.env.beginOk = true
              · rcases hrun : runTxStatements inp.env (beginTx ⟨db, none⟩)
                    (creationStatements role.sql
                      (generatedUsername inp.displayName uuid) pw) with ⟨res, st⟩
                rcases res with e | _
                · simp [pathRoleCreateRead, hr, hl, hu, hp, hd, hb, hrun] at h
                · by_cases hc : inp.env.commitOk = true
                  · simp only [pathRoleCreateRead, hr, hl, hu, hp, hd, hb, if_true,
                      hrun, hc] at h
                    injection h with h
                    subst h
                    refine ⟨generatedUsername inp.displayName uuid, pw, rfl, rfl, ?_⟩
                    intro h1 h2 kv hkv
                    rcases List.mem_cons.mp hkv with rfl | hkv'
                    · exact Ne.symm h1
                    · rcases List.mem_cons.mp hkv' with rfl | hkv''
                      · exact Ne.symm h2
                      · cases hkv''
                  · simp [pathRoleCreateRead, hr, hl, hu, hp, hd, hb, hrun, hc] at h
              · simp [pathRoleCreateRead, hr, hl, hu, hp, hd, hb] at h

/-- C8 witness: the sample issuance's response carries the password only in the
response data. -/
theorem pathRoleCreateRead_metadata_witness :
    ∃ u pw,
      (⟨[("username", "tok_u1"), ("password", "aaaaaaaaaaaaaaaaaaaaaaaaaaaaaa")],
        [("username", "tok_u1"), ("role", "web")], 0⟩ : SecretResponse).data =
          [("username", u), ("password", pw)] ∧
      (⟨[("username", "tok_u1"), ("password", "aaaaaaaaaaaaaaaaaaaaaaaaaaaaaa")],
        [("username", "tok_u1"), ("role", "web")], 0⟩ : SecretResponse).internalData =
          [("username", u), ("role", issueSampleOk.name)] ∧
      (pw ≠ u → pw ≠ issueSampleOk.name →
        ∀ kv ∈ (⟨[("username", "tok_u1"), ("password", "aaaaaaaaaaaaaaaaaaaaaaaaaaaaaa")],
          [("username", "tok_u1"), ("role", "web")], 0⟩ : SecretResponse).internalData,
          kv.2 ≠ pw) :=
  pathRoleCreateRead_metadata issueSampleOk []
    ⟨[("username", "tok_u1"), ("password", "aaaaaaaaaaaaaaaaaaaaaaaaaaaaaa")],
      [("username", "tok_u1"), ("role", "web")], 0⟩ (by decide)

/-! ## C4: username length and charset -/

theorem isLowerHex_isWordChar (c : Char) (h : isLowerHex c = true) :
    isWordChar c = true := by
  simp only [isLowerHex, isDigitChar, isWordChar, isLowerAlpha, Bool.or_eq_true,
    Bool.and_eq_true, decide_eq_true_eq] at h ⊢
  rcases h with ⟨h1, h2⟩ | ⟨h1, h2⟩
  · exact Or.inl (Or.inr ⟨h1, h2⟩)
  · exact Or.inl (Or.inl ⟨h1, le_trans h2 (by decide)⟩)

theorem usernameOk_take (cs : List Char) (n : Nat) (hn : 0 < n)
    (h : matchesUsernameRegex (String.mk cs) = true) :
    matchesUsernameRegex (String.mk (cs.take n)) = true := by
  cases cs with
  | nil => simp [matchesUsernameRegex] at h
  | cons c rest =>
    cases n with
    | zero => exact absurd hn (by omega)
    | succ m =>
      simp only [matchesUsernameRegex, List.take_succ_cons, Bool.and_eq_true,
        List.all_eq_true] at h ⊢
      exact ⟨h.1, fun x hx => h.2 x (List.take_subset m rest hx)⟩

theorem usernameOk_append (cs ds : List Char)
    (h : matchesUsernameRegex (String.mk cs) = true)
    (hd : ds.all isWordChar = true) :
    matchesUsernameRegex (String.mk (cs ++ ds)) = true := by
  cases cs with
  | nil => simp [matchesUsernameRegex] at h
  | cons c rest =>
    simp only [matchesUsernameRegex, List.cons_append, Bool.and_eq_true,
      List.all_eq_true, List.mem_append] at h ⊢
    refine ⟨h.1, fun x hx => ?_⟩
    rcases hx with hx | hx
    · exact h.2 x hx
    · exact List.all_eq_true.mp hd x hx

/-- C4 (amended): the generated username never exceeds 30 characters, whatever
the display name; and whenever the caller-supplied display name itself matches
`^[a-z][a-z0-9_]*$` (and the UUID is lower-case hex with hyphens, as
`uuid.GenerateUUID` produces), the generated username matches
`^[a-z][a-z0-9_]*$`. -/
theorem generatedUsername_shape (dn uuid : String) :
    (generatedUsername dn uuid).length ≤ oracleUsernameLength ∧
    (matchesUsernameRegex dn = true →
      uuid.data.all (fun c => isLowerHex c || c = '-') = true →
      matchesUsernameRegex (generatedUsername dn uuid) = true) := by
  constructor
  · simp only [generatedUsername]
    split <;> split <;>
      first
        | (simp only [takeStr, String.length, List.length_take]; omega)
        | omega
  · intro hdn huuid
    simp only [generatedUsername]
    set A := if dn.length > displayNameLimit then takeStr dn displayNameLimit else dn
      with hAdef
    have hud : (replaceDashes uuid).data.all isWordChar = true := by
      rw [List.all_eq_true]
      intro x hx
      obtain ⟨c, hc, rfl⟩ := List.mem_map.mp hx
      by_cases hdash : c = '-'
      · simp [hdash, isWordChar]
      · have hcc := List.all_eq_true.mp huuid c hc
        simp only [hdash, decide_False, Bool.or_false] at hcc
        simp only [if_neg hdash]
        exact isLowerHex_isWordChar c hcc
    have hA : matchesUsernameRegex A = true := by
      rw [hAdef]
      split
      · exact usernameOk_take dn.data displayNameLimit (by decide) hdn
      · exact hdn
    have h2 : matchesUsernameRegex (A ++ "_" ++ replaceDashes uuid) = true := by
      have h1 := usernameOk_append A.data "_".data hA (by decide)
      exact usernameOk_append (A.data ++ "_".data) (replaceDashes uuid).data h1 hud
    split
    · exact usernameOk_take (A ++ "_" ++ replaceDashes uuid).data oracleUsernameLength
        (by decide) h2
    · exact h2

/-- C4 counterexample: an issuance whose caller-supplied display name is `"A"`
succeeds, and the returned username does not match `^[a-z][a-z0-9_]*$`. -/
theorem pathRoleCreateRead_username_nonconforming :
    (pathRoleCreateRead issueSampleUpper []).1 =
      .ok ⟨[("username", "A_00000000_0000_0000_0000_0000"),
            ("password", "aaaaaaaaaaaaaaaaaaaaaaaaaaaaaa")],
           [("username", "A_00000000_0000_0000_0000_0000"), ("role", "web")], 0⟩ ∧
    matchesUsernameRegex "A_00000000_0000_0000_0000_0000" = false := by
  constructor
  · decide
  · decide

/-- C4 witness: a conforming display name and a hex UUID yield a conforming
username. -/
theorem generatedUsername_shape_witness :
    (generatedUsername "tok" "abcdef01-2345").length ≤ oracleUsernameLength ∧
    matchesUsernameRegex (generatedUsername "tok" "abcdef01-2345") = true :=
  ⟨(generatedUsername_shape "tok" "abcdef01-2345").1,
   (generatedUsername_shape "tok" "abcdef01-2345").2 (by decide) (by decide)⟩

/-! ## C2: revocation with a missing role -/

/-- C2 (code-bug evidence): in `builtin/logical/oracle/secret_creds.go`, a
revoke whose lease metadata names a role absent from storage succeeds and
attaches the warning claiming the default revocation SQL is used, yet the
committed database state is unchanged — zero statements are executed, because
the local `revocationSQL` is left empty and the file's own
`defaultRevocationSQL`, which would have produced `DROP USER u1`, is never
assigned.  (The `unnamed/part_001` revision does fall back to its default
template, as the claim describes.) -/
theorem secretCredsRevokeTxn_missing_role_runs_nothing :
    secretCredsRevokeTxn revokeSampleMissingRole ["principal u1"] =
      (.ok ["Role \"web\" cannot be found. Using default revocation SQL."],
       ["principal u1"]) ∧
    revocationStatements defaultRevocationSQLTxn "u1" = ["DROP USER u1"] ∧
    revocationStatements defaultRevocationSQLFallback "u1" =
      ["REVOKE CONNECT FROM u1", "REVOKE CREATE SESSION FROM u1", "DROP USER u1"] := by
  refine ⟨by decide, by decide, by decide⟩

/-! ## C7: renewal and the database -/

/-- C7 (code-bug evidence): the renew handler of
`builtin/logical/oracle/secret_creds.go` acquires the database handle on every
call, and on a lease with a non-zero expiration time prepares and executes an
`ALTER ROLE ... VALID UNTIL ...` statement — it is not free of database
interaction.  (The revisions in `unnamed/part_000` and `unnamed/part_001`
perform no database interaction on renew.) -/
theorem secretCredsRenewAlter_touches_database :
    secretCredsRenewAlter renewSampleAlter =
      (.ok 3600,
       [.acquireDB,
        .prepareStmt (alterRoleQuery "u1" "2018-01-01 00:00:00+0000"),
        .execStmt (alterRoleQuery "u1" "2018-01-01 00:00:00+0000")]) := by
  decide

/-! ## C5: session termination precedes revocation statements -/

theorem sessionAct_not_rev (a : DbAct) (h : isSessionAct a = true) :
    isRevStmtAct a = false := by
  cases a <;> simp_all [isSessionAct, isRevStmtAct]

theorem revAct_not_session (a : DbAct) (h : isRevStmtAct a = true) :
    isSessionAct a = false := by
  cases a <;> simp_all [isSessionAct, isRevStmtAct]

theorem all_not_rev_of_all_session (l : List DbAct) (h : l.all isSessionAct = true) :
    l.all (fun a => !isRevStmtAct a) = true := by
  rw [List.all_eq_true] at h ⊢
  intro a ha
  simp [sessionAct_not_rev a (h a ha)]

theorem all_not_session_of_all_rev (l : List DbAct) (h : l.all isRevStmtAct = true) :
    l.all (fun a => !isSessionAct a) = true := by
  rw [List.all_eq_true] at h ⊢
  intro a ha
  simp [revAct_not_session a (h a ha)]

theorem noSession_of_all_not_session (l : List DbAct)
    (h : l.all (fun a => !isSessionAct a) = true) :
    noSessionAfterRevStmt l = true := by
  induction l with
  | nil => rfl
  | cons a rest ih =>
    rw [List.all_cons, Bool.and_eq_true] at h
    simp only [noSessionAfterRevStmt]
    rw [Bool.and_eq_true]
    constructor
    · split
      · exact h.2
      · rfl
    · exact ih h.2

theorem noSession_of_all_not_rev (l : List DbAct)
    (h : l.all (fun a => !isRevStmtAct a) = true) :
    noSessionAfterRevStmt l = true := by
  induction l with
  | nil => rfl
  | cons a rest ih =>
    rw [List.all_cons, Bool.and_eq_true] at h
    have ha : isRevStmtAct a = false := by simpa using h.1
    simp only [noSessionAfterRevStmt, ha]
    simp [ih h.2]
  
theorem noSessionAfterRevStmt_append (pre delta : List DbAct)
    (hpre : pre.all (fun a => !isRevStmtAct a) = true)
    (hdelta : delta.all (fun a => !isSessionAct a) = true) :
    noSessionAfterRevStmt (pre ++ delta) = true := by
  induction pre with
  | nil => simpa using noSession_of_all_not_session delta hdelta
  | cons a pre' ih =>
    rw [List.all_cons, Bool.and_eq_true] at hpre
    have ha : isRevStmtAct a = false := by simpa using hpre.1
    simp only [List.cons_append, noSessionAfterRevStmt, ha]
    simp [ih hpre.2]

theorem any_rev_false (l : List DbAct)
    (h : l.all (fun a => !isRevStmtAct a) = true) :
    l.any isRevStmtAct = false := by
  cases hl : l.any isRevStmtAct
  · rfl
  · obtain ⟨x, hx, hpx⟩ := List.any_eq_true.mp hl
    have hh := List.all_eq_true.mp h x hx
    rw [hpx] at hh
    cases hh

theorem killLoop_trace (env : ExecEnv) :
    ∀ (sess : List (Nat × Nat)) (tr : List DbAct),
    ∃ delta, (killLoop env sess tr).2 = tr ++ delta ∧ delta.all isSessionAct = true := by
  intro sess
  induction sess with
  | nil => intro tr; exact ⟨[], by simp [killLoop]⟩
  | cons s rest ih =>
    intro tr
    rcases s with ⟨sid, ser⟩
    by_cases he : env.execOk (killStatement sid ser) = true
    · obtain ⟨delta, hd, hall⟩ := ih (tr ++ [.killExec (killStatement sid ser)])
      refine ⟨.killExec (killStatement sid ser) :: delta, ?_, ?_⟩
      · simp only [killLoop, he, if_true, hd]
        simp
      · simp [hall, isSessionAct]
    · refine ⟨[.killExec (killStatement sid ser)], ?_, by simp [isSessionAct]⟩
      simp [killLoop, he]

theorem killLoop_ok (env : ExecEnv) :
    ∀ (sess : List (Nat × Nat)) (tr tr' : List DbAct),
    killLoop env sess tr = (.ok (), tr') →
    tr' = tr ++ sess.map (fun s => DbAct.killExec (killStatement s.1 s.2)) := by
  intro sess
  induction sess with
  | nil =>
    intro tr tr' h
    simp only [killLoop, Prod.mk.injEq] at h
    simp [← h.2]
  | cons s rest ih =>
    intro tr tr' h
    rcases s with ⟨sid, ser⟩
    by_cases he : env.execOk (killStatement sid ser) = true
    · simp only [killLoop, he, if_true] at h
      have hr := ih _ _ h
      simp [hr]
    · simp [killLoop, he] at h

theorem runDirectStatements_trace (env : ExecEnv) :
    ∀ (stmts db : List String) (tr : List DbAct),
    ∃ delta, (runDirectStatements env stmts db tr).2.2 = tr ++ delta ∧
      delta.all isRevStmtAct = true := by
  intro stmts
  induction stmts with
  | nil => intro db tr; exact ⟨[], by simp [runDirectStatements]⟩
  | cons q rest ih =>
    intro db tr
    by_cases hp : env.prepareOk q = true
    · by_cases he : env.execOk q = true
      · obtain ⟨delta, hd, hall⟩ := ih (db ++ [q]) (tr ++ [.prepareStmt q, .execStmt q])
        refine ⟨.prepareStmt q :: .execStmt q :: delta, ?_, by simp [hall, isRevStmtAct]⟩
        simp only [runDirectStatements, hp, he, if_true, hd]
        simp
      · exact ⟨[.prepareStmt q, .execStmt q],
          by simp [runDirectStatements, hp, he, isRevStmtAct]⟩
    · exact ⟨[.prepareStmt q], by simp [runDirectStatements, hp, isRevStmtAct]⟩

/-- C5 (amended): in the session-terminating revision of `secretCredsRevoke`
(`unnamed/part_000`), every revoke call queries the session-activity view and
kills every returned session before any revocation statement is prepared or
executed: no revocation-statement action ever precedes a session-phase action,
and whenever revocation statements were reached the trace contains the session
query and one kill per returned session.  (The other two revisions perform no
session termination at all — see the counterexample.) -/
theorem secretCredsRevokeSessions_kills_first (inp : RevokeSessionsInput) (db : List String) :
    noSessionAfterRevStmt (secretCredsRevokeSessions inp db).2.2 = true ∧
    ((secretCredsRevokeSessions inp db).2.2.any isRevStmtAct = true →
      (∃ q, DbAct.sessionQueryPrepare q ∈ (secretCredsRevokeSessions inp db).2.2) ∧
      ∀ s ∈ inp.sessions,
        DbAct.killExec (killStatement s.1 s.2) ∈ (secretCredsRevokeSessions inp db).2.2) := by
  rcases hE : extractUsername inp.internalData with e | username
  · have hT : (secretCredsRevokeSessions inp db).2.2 = [] := by
      simp [secretCredsRevokeSessions, hE]
    rw [hT]
    exact ⟨rfl, fun h => absurd h (by decide)⟩
  · rcases hD : inp.dbAcquire with e | u
    · have hT : (secretCredsRevokeSessions inp db).2.2 = [.acquireDB] := by
        simp [secretCredsRevokeSessions, hE, hD]
      rw [hT]
      exact ⟨by decide, fun h => absurd h (by decide)⟩
    · cases u
      by_cases hP : inp.env.prepareOk (Query sessionQuerySQL [("name", username)]) = true
      · by_cases hQ : inp.queryOk = true
        · rcases hK : killLoop inp.env inp.sessions
              [.acquireDB,
               .sessionQueryPrepare (Query sessionQuerySQL [("name", username)]),
               .sessionRowsQuery] with ⟨res, tr⟩
          obtain ⟨delta0, hd0raw, hall0⟩ := killLoop_trace inp.env inp.sessions
            [.acquireDB,
             .sessionQueryPrepare (Query sessionQuerySQL [("name", username)]),
             .sessionRowsQuery]
          have hd0 : tr =
              [.acquireDB,
               .sessionQueryPrepare (Query sessionQuerySQL [("name", username)]),
               .sessionRowsQuery] ++ delta0 := by
            rw [hK] at hd0raw
            exact hd0raw
          have hprefixAll : tr.all (fun a => !isRevStmtAct a) = true := by
            rw [hd0, List.all_append, Bool.and_eq_true]
            exact ⟨by simp [isRevStmtAct], all_not_rev_of_all_session delta0 hall0⟩
          rcases res with e | u'
          · have hT : (secretCredsRevokeSessions inp db).2.2 = tr := by
              simp [secretCredsRevokeSessions, hE, hD, hP, hQ, hK]
            rw [hT]
            refine ⟨noSession_of_all_not_rev tr hprefixAll, fun h => ?_⟩
            rw [any_rev_false tr hprefixAll] at h
            cases h
          · cases u'
            have htr : tr =
                [.acquireDB,
                 .sessionQueryPrepare (Query sessionQuerySQL [("name", username)]),
                 .sessionRowsQuery] ++
                  inp.sessions.map (fun s => DbAct.killExec (killStatement s.1 s.2)) :=
              killLoop_ok inp.env inp.sessions _ tr hK
            by_cases hR : inp.rowsErr = true
            · have hT : (secretCredsRevokeSessions inp db).2.2 = tr := by
                simp [secretCredsRevokeSessions, hE, hD, hP, hQ, hK, hR]
              rw [hT]
              refine ⟨noSession_of_all_not_rev tr hprefixAll, fun h => ?_⟩
              rw [any_rev_false tr hprefixAll] at h
              cases h
            · rcases hRun : runDirectStatements inp.env
                  (revocationStatements revocationSQLSessions username) db tr
                  with ⟨res2, db1, tr1⟩
              obtain ⟨delta, hd1raw, hallrev⟩ := runDirectStatements_trace inp.env
                (revocationStatements revocationSQLSessions username) db tr
              have hd1 : tr1 = tr ++ delta := by
                rw [hRun] at hd1raw
                exact hd1raw
              have hT : (secretCredsRevokeSessions inp db).2.2 = tr1 := by
                rcases res2 with e2 | u2
                · simp [secretCredsRevokeSessions, hE, hD, hP, hQ, hK, hR, hRun]
                · cases u2
                  simp [secretCredsRevokeSessions, hE, hD, hP, hQ, hK, hR, hRun]
              rw [hT]
              have hns : noSessionAfterRevStmt tr1 = true := by
                rw [hd1]
                exact noSessionAfterRevStmt_append tr delta hprefixAll
                  (all_not_session_of_all_rev delta hallrev)
              have hsqp : DbAct.sessionQueryPrepare
                  (Query sessionQuerySQL [("name", username)]) ∈ tr1 := by
                rw [hd1, htr]
                simp
              have hkills : ∀ s ∈ inp.sessions,
                  DbAct.killExec (killStatement s.1 s.2) ∈ tr1 := by
                intro s hs
                rw [hd1, htr]
                refine List.mem_append_left _ (List.mem_append_right _ ?_)
                exact List.mem_map_of_mem _ hs
              exact ⟨hns, fun _ => ⟨⟨_, hsqp⟩, hkills⟩⟩
        · have hT : (secretCredsRevokeSessions inp db).2.2 =
              [.acquireDB,
               .sessionQueryPrepare (Query sessionQuerySQL [("name", username)]),
               .sessionRowsQuery] := by
            simp [secretCredsRevokeSessions, hE, hD, hP, hQ]
          rw [hT]
          constructor
          · simp [noSessionAfterRevStmt, isRevStmtAct, isSessionAct]
          · intro h
            simp [isRevStmtAct] at h
      · have hT : (secretCredsRevokeSessions inp db).2.2 =
            [.acquireDB,
             .sessionQueryPrepare (Query sessionQuerySQL [("name", username)])] := by
          simp [secretCredsRevokeSessions, hE, hD, hP]
        rw [hT]
        constructor
        · simp [noSessionAfterRevStmt, isRevStmtAct, isSessionAct]
        · intro h
          simp [isRevStmtAct] at h

/-- C5 counterexample: a revoke call of the revision in `unnamed/part_001`
executes revocation statements without any session-activity query or
kill-session command. -/
theorem secretCredsRevokeFallback_no_session_step :
    (secretCredsRevokeFallback revokeSampleNoRole []).2.2.any isRevStmtAct = true ∧
    (secretCredsRevokeFallback revokeSampleNoRole []).2.2.any isSessionAct = false := by
  exact ⟨by decide, by decide⟩

/-- C5 witness: a revoke with one active session kills it before the
revocation statements run. -/
theorem secretCredsRevokeSessions_kills_first_witness :
    noSessionAfterRevStmt (secretCredsRevokeSessions revokeSampleSessions []).2.2 = true ∧
    ((∃ q, DbAct.sessionQueryPrepare q ∈
        (secretCredsRevokeSessions revokeSampleSessions []).2.2) ∧
      ∀ s ∈ revokeSampleSessions.sessions,
        DbAct.killExec (killStatement s.1 s.2) ∈
          (secretCredsRevokeSessions revokeSampleSessions []).2.2) :=
  ⟨(secretCredsRevokeSessions_kills_first revokeSampleSessions []).1,
   (secretCredsRevokeSessions_kills_first revokeSampleSessions []).2 (by decide)⟩
